import Mathlib

/-!
Verification of the FeedbackGraphQL backend (Apollo/Mongoose GraphQL API over
Users, Products, Feedback, AuditLog).  The resolvers of `src/schema.js` are
shallowly embedded: the Mongo collections become lists in an explicit `DB`
state, each resolver becomes a function `... → Except String (result × DB)`,
and the external collaborators (bcrypt, jwt) are modelled as injective
tagging functions.  The monthly cron cleanup is embedded as a fold over the
product list.
-/

namespace FeedbackGraphQL

/-- A row of the `User` collection (`models.js` user schema: name, unique
email, hashed password, role, verified flag, optional verification and reset
tokens with expiry). -/
structure UserR where
  id : Nat
  name : String
  email : String
  password : String
  role : String
  verified : Bool
  verificationToken : Option String
  resetToken : Option String
  resetTokenExpiry : Option Nat
  deriving DecidableEq

/-- A row of the `Product` collection (name, optional description, cached
`averageRating`, default 0). -/
structure ProductR where
  id : Nat
  name : String
  description : Option String
  averageRating : Rat
  deriving DecidableEq

/-- A row of the `Feedback` collection (references its user and product by
id; integer rating; optional comment; date). -/
structure FeedbackR where
  id : Nat
  userId : Nat
  productId : Nat
  rating : Int
  comment : Option String
  date : Nat
  deriving DecidableEq

/-- A row of the `AuditLog` collection: optional actor id, action label,
detail string. -/
structure AuditR where
  userId : Option Nat
  action : String
  details : String
  deriving DecidableEq

/-- The whole persistent state: the four Mongo collections, plus `oplog`
modelling the operator console (`console.error`). -/
structure DB where
  users : List UserR
  products : List ProductR
  feedbacks : List FeedbackR
  audits : List AuditR
  oplog : List String
  deriving DecidableEq

/-- The resolver context user (decoded JWT claims `{ id, role }`); `none`
when the request carries no valid token. -/
structure Ctx where
  id : Nat
  role : String
  deriving DecidableEq

/-- Modelled collaborator (bcryptjs): `bcrypt.hash` as an injective tag. -/
def bcryptHash (plaintext : String) : String :=
  "bcrypt$" ++ plaintext

/-- Modelled collaborator (bcryptjs): `bcrypt.compare` succeeds exactly on
the hash of the plaintext. -/
def bcryptCompare (plaintext digest : String) : Bool :=
  digest == bcryptHash plaintext

/-- Modelled collaborator (jsonwebtoken): `jwt.sign({id, role}, secret)`. -/
def jwtSign (id : Nat) (role : String) : String :=
  "jwt." ++ toString id ++ "." ++ role

/-- Query `Feedback.find({ productId })`. -/
def feedbacksByProduct (db : DB) (productId : Nat) : List FeedbackR :=
  db.feedbacks.filter (fun f => f.productId == productId)

/-- The average computed by `updateAverageRating` in `schema.js`:
`feedbacks.length === 0 ? 0 : feedbacks.reduce((sum, f) => sum + f.rating, 0) / feedbacks.length`. -/
def meanRating (feedbacks : List FeedbackR) : Rat :=
  if feedbacks.length = 0 then 0
  else (((feedbacks.map (fun f => f.rating)).sum : Int) : Rat) / (feedbacks.length : Rat)

/-- Function `updateAverageRating(productId)` from `schema.js`: fetch the matching
feedback, compute the average, `Product.findByIdAndUpdate(productId, { averageRating: avg })`. -/
def updateAverageRating (productId : Nat) (db : DB) : DB :=
  let feedbacks := feedbacksByProduct db productId
  let avg : Rat := meanRating feedbacks
  { db with products := db.products.map (fun p =>
      if p.id == productId then { p with averageRating := avg } else p) }

/-- Function `logAudit(user, action, details)` from `schema.js`: try to append an
`AuditLog` row; on failure only `console.error` (modelled by `oplog`).  The
`auditOk` flag models whether the underlying `AuditLog.create` succeeds. -/
def logAudit (auditOk : Bool) (actor : Option Nat) (action details : String) (db : DB) : DB :=
  if auditOk then
    { db with audits := db.audits ++ [{ userId := actor, action := action, details := details }] }
  else
    { db with oplog := db.oplog ++ ["AuditLog error"] }

/-- Mutation `register` from `schema.js`: reject a duplicate email, hash the
password, create the user with `verified: false` and a verification token,
audit, and return `{ token, user }`.  The fresh id, fresh verification
token and the plaintext password are explicit arguments; the
`sendVerificationEmail` call only emails the token already stored, changing
no collection. -/
def register (auditOk : Bool) (name email password role vtok : String) (newId : Nat)
    (db : DB) : Except String ((String × UserR) × DB) :=
  if (db.users.find? (fun v => v.email == email)).isSome then
    .error "Email already registered"
  else
    let u : UserR :=
      { id := newId, name := name, email := email, password := bcryptHash password,
        role := role, verified := false, verificationToken := some vtok,
        resetToken := none, resetTokenExpiry := none }
    let db1 := { db with users := db.users ++ [u] }
    let db2 := logAudit auditOk (some newId) "register" ("User registered with email: " ++ email) db1
    .ok ((jwtSign newId role, u), db2)

/-- Mutation `login` from `schema.js`: find by email; wrong email or password gives
"Invalid credentials"; an unverified user gives "Email not verified"; else
return `{ token, user }`. -/
def login (email password : String) (db : DB) : Except String (String × UserR) :=
  match db.users.find? (fun v => v.email == email) with
  | none => .error "Invalid credentials"
  | some u =>
    if bcryptCompare password u.password then
      if u.verified then .ok (jwtSign u.id u.role, u)
      else .error "Email not verified"
    else .error "Invalid credentials"

/-- The `User.findOne({ resetToken: token, resetTokenExpiry: { $gt: Date.now() } })`
filter of `resetPassword`. -/
def resetTokenValid (token : String) (now : Nat) (u : UserR) : Bool :=
  u.resetToken == some token &&
    (match u.resetTokenExpiry with
     | some e => decide (now < e)
     | none => false)

/-- Mutation `resetPassword` from `schema.js`: find a user holding this unexpired
reset token; on failure raise "Invalid or expired token"; on success store
the new password hash and clear `resetToken`/`resetTokenExpiry`. -/
def resetPassword (token newPassword : String) (now : Nat) (db : DB) :
    Except String (String × DB) :=
  match db.users.find? (resetTokenValid token now) with
  | none => .error "Invalid or expired token"
  | some u =>
    let u2 := { u with password := bcryptHash newPassword,
                       resetToken := none, resetTokenExpiry := none }
    .ok ("Password has been reset successfully.",
         { db with users := db.users.map (fun v => if v.id == u.id then u2 else v) })

/-- Query `users` from `schema.js`: admin-only listing. -/
def usersQuery (caller : Option Ctx) (db : DB) : Except String (List UserR) :=
  match caller with
  | none => .error "Unauthorized"
  | some u => if u.role ≠ "admin" then .error "Unauthorized" else .ok db.users

/-- Mutation `addProduct` from `schema.js`: admin-only; create the product (cached
rating defaults to 0 per the product schema), audit, return it. -/
def addProduct (auditOk : Bool) (caller : Option Ctx) (name : String)
    (description : Option String) (newId : Nat) (db : DB) :
    Except String (ProductR × DB) :=
  match caller with
  | none => .error "Unauthorized"
  | some u =>
    if u.role ≠ "admin" then .error "Unauthorized"
    else
      let p : ProductR := { id := newId, name := name, description := description, averageRating := 0 }
      let db1 := { db with products := db.products ++ [p] }
      .ok (p, logAudit auditOk (some u.id) "addProduct" ("Added product: " ++ name) db1)

/-- Mutation `addFeedback` from `schema.js`: absent or admin caller is rejected; a
rating outside 1..5 raises "Rating must be 1-5"; a missing product raises
"Product not found"; else create the row, recompute the product average,
audit, return the row. -/
def addFeedback (auditOk : Bool) (caller : Option Ctx) (productId : Nat) (rating : Int)
    (comment : Option String) (now newId : Nat) (db : DB) :
    Except String (FeedbackR × DB) :=
  match caller with
  | none => .error "Unauthorized"
  | some u =>
    if u.role = "admin" then .error "Unauthorized"
    else if rating < 1 ∨ 5 < rating then .error "Rating must be 1-5"
    else match db.products.find? (fun p => p.id == productId) with
      | none => .error "Product not found"
      | some _ =>
        let fb : FeedbackR :=
          { id := newId, userId := u.id, productId := productId, rating := rating,
            comment := comment, date := now }
        let db1 := { db with feedbacks := db.feedbacks ++ [fb] }
        let db2 := updateAverageRating productId db1
        .ok (fb, logAudit auditOk (some u.id) "addFeedback"
              ("Added feedback for product " ++ toString productId) db2)

/-- Mutation `updateFeedback` from `schema.js`: a missing row or a caller other than
the owner of the row is "Unauthorized" (an absent caller crashes on `user.id`,
modelled as a TypeError); otherwise `rating ?? old` and `comment ?? old`
are stored with NO range check on the rating, the product average is
recomputed, and the row is returned. -/
def updateFeedback (auditOk : Bool) (caller : Option Ctx) (id : Nat) (rating : Option Int)
    (comment : Option String) (db : DB) : Except String (FeedbackR × DB) :=
  match db.feedbacks.find? (fun f => f.id == id) with
  | none => .error "Unauthorized"
  | some fb =>
    match caller with
    | none => .error "TypeError"
    | some u =>
      if fb.userId ≠ u.id then .error "Unauthorized"
      else
        let fb2 := { fb with rating := rating.getD fb.rating,
                             comment := comment.orElse (fun _ => fb.comment) }
        let db1 := { db with feedbacks := db.feedbacks.map (fun f => if f.id == id then fb2 else f) }
        let db2 := updateAverageRating fb.productId db1
        .ok (fb2, logAudit auditOk (some u.id) "updateFeedback"
              ("Updated feedback " ++ toString id) db2)

/-- Mutation `updateUser` from `schema.js`: admin-only
`User.findByIdAndUpdate(id, { name, email, role }, { new: true })`
(absent fields keep the stored values; no audit entry is written). -/
def updateUser (caller : Option Ctx) (id : Nat) (name email role : Option String)
    (db : DB) : Except String (Option UserR × DB) :=
  match caller with
  | none => .error "Unauthorized"
  | some u =>
    if u.role ≠ "admin" then .error "Unauthorized"
    else
      let upd := fun (v : UserR) =>
        { v with name := name.getD v.name, email := email.getD v.email, role := role.getD v.role }
      .ok ((db.users.find? (fun v => v.id == id)).map upd,
           { db with users := db.users.map (fun v => if v.id == id then upd v else v) })

/-- Mutation `deleteProduct` from `schema.js`: admin-only; delete the product, then
`Feedback.deleteMany({ productId: id })`, audit, return true. -/
def deleteProduct (auditOk : Bool) (caller : Option Ctx) (id : Nat) (db : DB) :
    Except String (Bool × DB) :=
  match caller with
  | none => .error "Unauthorized"
  | some u =>
    if u.role ≠ "admin" then .error "Unauthorized"
    else
      let db1 := { db with products := db.products.filter (fun p => p.id ≠ id) }
      let db2 := { db1 with feedbacks := db1.feedbacks.filter (fun f => f.productId ≠ id) }
      .ok (true, logAudit auditOk (some u.id) "deleteProduct" ("Deleted product " ++ toString id) db2)

/-- Mutation `deleteFeedback` from `schema.js`: a missing row is "Unauthorized"; a
caller that is neither admin nor the owner of the row is "Unauthorized" (an
absent caller crashes on `user.role`, modelled as a TypeError); else delete
the row, recompute the product average, audit, return true. -/
def deleteFeedback (auditOk : Bool) (caller : Option Ctx) (id : Nat) (db : DB) :
    Except String (Bool × DB) :=
  match db.feedbacks.find? (fun f => f.id == id) with
  | none => .error "Unauthorized"
  | some fb =>
    match caller with
    | none => .error "TypeError"
    | some u =>
      if u.role ≠ "admin" ∧ fb.userId ≠ u.id then .error "Unauthorized"
      else
        let db1 := { db with feedbacks := db.feedbacks.filter (fun f => f.id ≠ id) }
        let db2 := updateAverageRating fb.productId db1
        .ok (true, logAudit auditOk (some u.id) "deleteFeedback"
              ("Deleted feedback " ++ toString id) db2)

/-- Mutation `deleteUser` from `schema.js`: admin-only; delete the user, then
`Feedback.deleteMany({ userId: id })`, audit, return true. -/
def deleteUser (auditOk : Bool) (caller : Option Ctx) (id : Nat) (db : DB) :
    Except String (Bool × DB) :=
  match caller with
  | none => .error "Unauthorized"
  | some u =>
    if u.role ≠ "admin" then .error "Unauthorized"
    else
      let db1 := { db with users := db.users.filter (fun v => v.id ≠ id) }
      let db2 := { db1 with feedbacks := db1.feedbacks.filter (fun f => f.userId ≠ id) }
      .ok (true, logAudit auditOk (some u.id) "deleteUser" ("Deleted user " ++ toString id) db2)

/-- One iteration of the monthly cron body in `schema.js`: for a product,
fetch its feedback; if there are more than 3 rows and every rating is at
most 1, delete the rows, delete the product, and audit with a null actor. -/
def sweepStep (auditOk : Bool) (db : DB) (product : ProductR) : DB :=
  let feedbacks := feedbacksByProduct db product.id
  if feedbacks.length > 3 ∧ (∀ f ∈ feedbacks, f.rating ≤ 1) then
    let db1 := { db with feedbacks := db.feedbacks.filter (fun f => f.productId ≠ product.id) }
    let db2 := { db1 with products := db1.products.filter (fun p => p.id ≠ product.id) }
    logAudit auditOk none "monthlyCleanup"
      ("Deleted product " ++ toString product.id ++ " with all feedback <=1") db2
  else db

/-- The monthly cron job of `schema.js` (`cron.schedule`, monthly):
iterate the sweep over the product listing taken at the start of the run. -/
def monthlyCleanup (auditOk : Bool) (db : DB) : DB :=
  db.products.foldl (sweepStep auditOk) db

/-- The audit row written by the sweep for product `pid`. -/
def cleanupAudit (pid : Nat) : AuditR :=
  { userId := none, action := "monthlyCleanup",
    details := "Deleted product " ++ toString pid ++ " with all feedback <=1" }

@[simp] theorem logAudit_users (a : Bool) (actor : Option Nat) (act det : String) (db : DB) :
    (logAudit a actor act det db).users = db.users := by
  cases a <;> rfl

@[simp] theorem logAudit_products (a : Bool) (actor : Option Nat) (act det : String) (db : DB) :
    (logAudit a actor act det db).products = db.products := by
  cases a <;> rfl

@[simp] theorem logAudit_feedbacks (a : Bool) (actor : Option Nat) (act det : String) (db : DB) :
    (logAudit a actor act det db).feedbacks = db.feedbacks := by
  cases a <;> rfl

theorem logAudit_audits_mono (a : Bool) (actor : Option Nat) (act det : String) (db : DB)
    (x : AuditR) (hx : x ∈ db.audits) : x ∈ (logAudit a actor act det db).audits := by
  cases a with
  | false => exact hx
  | true => exact List.mem_append_left _ hx

/-- An empty database, used by several concrete witnesses. -/
def emptyDB : DB :=
  { users := [], products := [], feedbacks := [], audits := [], oplog := [] }

/-- C1: after `updateAverageRating` runs for a product id, the product
stored under that id carries exactly `sum(rating)/count` over the feedback
rows referencing it, and 0 when there are none (both cases are `meanRating`). -/
theorem updateAverageRating_mean (db : DB) (pid : Nat) (p : ProductR)
    (hmem : p ∈ (updateAverageRating pid db).products) (hid : p.id = pid) :
    p.averageRating = meanRating (feedbacksByProduct db pid) := by
  simp only [updateAverageRating, List.mem_map] at hmem
  obtain ⟨q, hq, hpq⟩ := hmem
  by_cases h : q.id = pid
  · rw [if_pos (by simp [h])] at hpq
    subst hpq
    rfl
  · rw [if_neg (by simp [h])] at hpq
    subst hpq
    exact absurd hid h

/-- Concrete database for the C1 witness: one product, feedback ratings 3 and 4. -/
def dbC1 : DB :=
  { users := []
    products := [{ id := 1, name := "p", description := none, averageRating := 0 }]
    feedbacks :=
      [{ id := 1, userId := 5, productId := 1, rating := 3, comment := none, date := 0 },
       { id := 2, userId := 6, productId := 1, rating := 4, comment := none, date := 0 }]
    audits := []
    oplog := [] }

theorem updateAverageRating_mean_witness :
    ({ id := 1, name := "p", description := none,
       averageRating := (7 : Rat) / 2 } : ProductR).averageRating
      = meanRating (feedbacksByProduct dbC1 1) :=
  updateAverageRating_mean dbC1 1
    { id := 1, name := "p", description := none, averageRating := (7 : Rat) / 2 }
    (by norm_num [updateAverageRating, dbC1, feedbacksByProduct, meanRating]) rfl

/-- C5: `login` returns a session token exactly when the email resolves to
a stored user whose password hash matches and whose verified flag is true;
with matching credentials but verified = false it fails with the
verification-required error "Email not verified" (so no token is issued). -/
theorem login_spec (email password : String) (db : DB) :
    ((∃ r, login email password db = .ok r) ↔
      (∃ u, db.users.find? (fun v => v.email == email) = some u ∧
        bcryptCompare password u.password = true ∧ u.verified = true)) ∧
    (∀ u, db.users.find? (fun v => v.email == email) = some u →
      bcryptCompare password u.password = true → u.verified = false →
      login email password db = .error "Email not verified") := by
  constructor
  · constructor
    · rintro ⟨r, hr⟩
      unfold login at hr
      cases hfind : db.users.find? (fun v => v.email == email) with
      | none => rw [hfind] at hr; exact absurd hr (by simp)
      | some u =>
        rw [hfind] at hr
        by_cases hc : bcryptCompare password u.password
        · by_cases hv : u.verified
          · exact ⟨u, rfl, hc, hv⟩
          · simp [hc, hv] at hr
        · simp [hc] at hr
    · rintro ⟨u, hfind, hc, hv⟩
      refine ⟨(jwtSign u.id u.role, u), ?_⟩
      unfold login
      rw [hfind]
      simp [hc, hv]
  · intro u hfind hc hv
    unfold login
    rw [hfind]
    simp [hc, hv]

/-- The user of the C5 witness: correct credentials, but not yet verified. -/
def uC5 : UserR :=
  { id := 1, name := "n", email := "a@b", password := bcryptHash "pw", role := "user",
    verified := false, verificationToken := some "vt", resetToken := none,
    resetTokenExpiry := none }

def dbC5 : DB :=
  { users := [uC5], products := [], feedbacks := [], audits := [], oplog := [] }

theorem login_spec_witness :
    login "a@b" "pw" dbC5 = .error "Email not verified" :=
  (login_spec "a@b" "pw" dbC5).2 uC5 (by rfl) (by rfl) rfl

/-- C10: a register call on a fresh email succeeds, stores the new user with
verified = false, and still returns an AuthPayload whose token is the signed
session token of that still-unverified user. -/
theorem register_unverified_token (a : Bool) (name email password role vtok : String)
    (newId : Nat) (db : DB)
    (hfresh : db.users.find? (fun v => v.email == email) = none) :
    ∃ u db2,
      register a name email password role vtok newId db = .ok ((jwtSign u.id u.role, u), db2) ∧
      u.verified = false ∧ u ∈ db2.users := by
  refine ⟨⟨newId, name, email, bcryptHash password, role, false, some vtok, none, none⟩,
    logAudit a (some newId) "register" ("User registered with email: " ++ email)
      { db with users := db.users ++
          [⟨newId, name, email, bcryptHash password, role, false, some vtok, none, none⟩] },
    ?_, rfl, ?_⟩
  · unfold register
    rw [hfresh]
    rfl
  · rw [logAudit_users]
    simp

theorem register_unverified_token_witness :
    ∃ u db2,
      register true "n" "a@b" "pw" "user" "tok" 1 emptyDB = .ok ((jwtSign u.id u.role, u), db2) ∧
      u.verified = false ∧ u ∈ db2.users :=
  register_unverified_token true "n" "a@b" "pw" "user" "tok" 1 emptyDB rfl

/-- C7: with an absent caller, or one whose role is not admin, the
admin-only operations addProduct, deleteUser, updateUser and the users
listing all fail with Unauthorized (returning no state, so nothing is
written); and with an admin caller, addFeedback fails with Unauthorized. -/
theorem admin_guard (a : Bool) (caller : Option Ctx) (db : DB)
    (hnot : ∀ u, caller = some u → u.role ≠ "admin") :
    (∀ name desc newId, addProduct a caller name desc newId db = .error "Unauthorized") ∧
    (∀ id, deleteUser a caller id db = .error "Unauthorized") ∧
    (∀ id name email role, updateUser caller id name email role db = .error "Unauthorized") ∧
    usersQuery caller db = .error "Unauthorized" ∧
    (∀ u, u.role = "admin" → ∀ pid r c now newId,
      addFeedback a (some u) pid r c now newId db = .error "Unauthorized") := by
  refine ⟨?_, ?_, ?_, ?_, ?_⟩
  · intro name desc newId
    cases caller with
    | none => rfl
    | some u => simp [addProduct, hnot u rfl]
  · intro id
    cases caller with
    | none => rfl
    | some u => simp [deleteUser, hnot u rfl]
  · intro id name email role
    cases caller with
    | none => rfl
    | some u => simp [updateUser, hnot u rfl]
  · cases caller with
    | none => rfl
    | some u => simp [usersQuery, hnot u rfl]
  · intro u hu pid r c now newId
    simp [addFeedback, hu]

theorem admin_guard_witness :
    usersQuery none emptyDB = .error "Unauthorized" ∧
    addFeedback true (some ⟨9, "admin"⟩) 1 3 none 0 1 emptyDB = .error "Unauthorized" :=
  ⟨(admin_guard true none emptyDB (fun _ h => nomatch h)).2.2.2.1,
   (admin_guard true none emptyDB (fun _ h => nomatch h)).2.2.2.2 ⟨9, "admin"⟩ rfl 1 3 none 0 1⟩

/-- The feedback row of the C2 scenario (owner 7, rating 3). -/
def fbC2 : FeedbackR :=
  { id := 1, userId := 7, productId := 1, rating := 3, comment := none, date := 0 }

def dbC2 : DB :=
  { users := [], products := [{ id := 1, name := "p", description := none, averageRating := 3 }],
    feedbacks := [fbC2], audits := [], oplog := [] }

/-- C2 failing input: the owner calls updateFeedback with rating 6.  The
resolver performs no range check, succeeds, and stores a rating outside
1..5, violating the claimed ValidationFailure rejection for updates. -/
theorem updateFeedback_accepts_rating_6 :
    ∃ r, updateFeedback true (some ⟨7, "user"⟩) 1 (some 6) none dbC2 = .ok r ∧
      r.1.rating = 6 ∧ r.1 ∈ r.2.feedbacks := by
  refine ⟨_, rfl, rfl, ?_⟩
  simp [dbC2, fbC2, updateAverageRating, logAudit, feedbacksByProduct]

/-- C4: updateFeedback succeeds only for the owner of the stored row (hence only
for an owner-or-admin caller), deleteFeedback only for the owner or an
admin; a caller that is neither (or an absent caller) gets an error, and
since an error returns no state the row is unchanged. -/
theorem feedback_owner_or_admin (a : Bool) (id : Nat) (r : Option Int) (c : Option String)
    (db : DB) :
    (∀ u res, updateFeedback a (some u) id r c db = .ok res →
      ∃ fb, db.feedbacks.find? (fun f => f.id == id) = some fb ∧ fb.userId = u.id) ∧
    (∀ u res, deleteFeedback a (some u) id db = .ok res →
      ∃ fb, db.feedbacks.find? (fun f => f.id == id) = some fb ∧
        (fb.userId = u.id ∨ u.role = "admin")) ∧
    (∀ u fb, db.feedbacks.find? (fun f => f.id == id) = some fb →
      fb.userId ≠ u.id → u.role ≠ "admin" →
      updateFeedback a (some u) id r c db = .error "Unauthorized" ∧
      deleteFeedback a (some u) id db = .error "Unauthorized") ∧
    ((db.feedbacks.find? (fun f => f.id == id)).isSome = true →
      updateFeedback a none id r c db = .error "TypeError" ∧
      deleteFeedback a none id db = .error "TypeError") := by
  refine ⟨?_, ?_, ?_, ?_⟩
  · intro u res hok
    unfold updateFeedback at hok
    cases hfind : db.feedbacks.find? (fun f => f.id == id) with
    | none => rw [hfind] at hok; exact absurd hok (by simp)
    | some fb =>
      rw [hfind] at hok
      by_cases hown : fb.userId = u.id
      · exact ⟨fb, rfl, hown⟩
      · simp [hown] at hok
  · intro u res hok
    unfold deleteFeedback at hok
    cases hfind : db.feedbacks.find? (fun f => f.id == id) with
    | none => rw [hfind] at hok; exact absurd hok (by simp)
    | some fb =>
      rw [hfind] at hok
      by_cases hown : fb.userId = u.id
      · exact ⟨fb, rfl, Or.inl hown⟩
      · by_cases hadm : u.role = "admin"
        · exact ⟨fb, rfl, Or.inr hadm⟩
        · simp [hown, hadm] at hok
  · intro u fb hfind hown hadm
    constructor
    · unfold updateFeedback
      rw [hfind]
      simp [hown]
    · unfold deleteFeedback
      rw [hfind]
      simp [hown, hadm]
  · intro hsome
    cases hfind : db.feedbacks.find? (fun f => f.id == id) with
    | none => rw [hfind] at hsome; exact absurd hsome (by simp)
    | some fb =>
      constructor
      · unfold updateFeedback; rw [hfind]
      · unfold deleteFeedback; rw [hfind]

theorem feedback_owner_or_admin_witness :
    updateFeedback true (some ⟨8, "user"⟩) 1 (some 2) none dbC2 = .error "Unauthorized" ∧
    deleteFeedback true (some ⟨8, "user"⟩) 1 dbC2 = .error "Unauthorized" :=
  (feedback_owner_or_admin true 1 (some 2) none dbC2).2.2.1 ⟨8, "user"⟩ fbC2
    (by rfl) (by decide) (by decide)

/-- Concrete database for the C8 witness: one product with two feedback
rows from two users. -/
def dbC8 : DB :=
  { users := [{ id := 3, name := "v", email := "v@b", password := "h", role := "user",
                verified := true, verificationToken := none, resetToken := none,
                resetTokenExpiry := none }],
    products := [{ id := 1, name := "p", description := none, averageRating := 0 },
                 { id := 2, name := "q", description := none, averageRating := 0 }],
    feedbacks := [{ id := 1, userId := 3, productId := 1, rating := 1, comment := none, date := 0 },
                  { id := 2, userId := 3, productId := 2, rating := 5, comment := none, date := 0 },
                  { id := 3, userId := 4, productId := 1, rating := 2, comment := none, date := 0 }],
    audits := [], oplog := [] }

/-- C8: a successful deleteProduct leaves exactly the products with a
different id and exactly the feedback rows not referencing the deleted id;
a successful deleteUser leaves exactly the other users and the feedback
rows not authored by the deleted id. -/
theorem delete_cascade (a : Bool) (caller : Option Ctx) (id : Nat) (db : DB) :
    (∀ r db2, deleteProduct a caller id db = .ok (r, db2) →
      db2.products = db.products.filter (fun p => p.id ≠ id) ∧
      db2.feedbacks = db.feedbacks.filter (fun f => f.productId ≠ id)) ∧
    (∀ r db2, deleteUser a caller id db = .ok (r, db2) →
      db2.users = db.users.filter (fun v => v.id ≠ id) ∧
      db2.feedbacks = db.feedbacks.filter (fun f => f.userId ≠ id)) := by
  constructor
  · intro r db2 hok
    cases caller with
    | none => exact absurd hok (by simp [deleteProduct])
    | some u =>
      by_cases hrole : u.role = "admin"
      · have hok2 : deleteProduct a (some u) id db =
            .ok (true, logAudit a (some u.id) "deleteProduct" ("Deleted product " ++ toString id)
              { db with products := db.products.filter (fun p => p.id ≠ id),
                        feedbacks := db.feedbacks.filter (fun f => f.productId ≠ id) }) := by
          unfold deleteProduct
          simp [hrole]
        rw [hok2] at hok
        simp only [Except.ok.injEq, Prod.mk.injEq] at hok
        obtain ⟨-, hdb⟩ := hok
        subst hdb
        exact ⟨by rw [logAudit_products], by rw [logAudit_feedbacks]⟩
      · exact absurd hok (by simp [deleteProduct, hrole])
  · intro r db2 hok
    cases caller with
    | none => exact absurd hok (by simp [deleteUser])
    | some u =>
      by_cases hrole : u.role = "admin"
      · have hok2 : deleteUser a (some u) id db =
            .ok (true, logAudit a (some u.id) "deleteUser" ("Deleted user " ++ toString id)
              { db with users := db.users.filter (fun v => v.id ≠ id),
                        feedbacks := db.feedbacks.filter (fun f => f.userId ≠ id) }) := by
          unfold deleteUser
          simp [hrole]
        rw [hok2] at hok
        simp only [Except.ok.injEq, Prod.mk.injEq] at hok
        obtain ⟨-, hdb⟩ := hok
        subst hdb
        exact ⟨by rw [logAudit_users], by rw [logAudit_feedbacks]⟩
      · exact absurd hok (by simp [deleteUser, hrole])

theorem delete_cascade_witness :
    ∃ db2, deleteProduct true (some ⟨9, "admin"⟩) 1 dbC8 = .ok (true, db2) ∧
      db2.products = dbC8.products.filter (fun p => p.id ≠ 1) ∧
      db2.feedbacks = dbC8.feedbacks.filter (fun f => f.productId ≠ 1) :=
  ⟨_, rfl, (delete_cascade true (some ⟨9, "admin"⟩) 1 dbC8).1 true _ rfl⟩

/-- C6: with a reset token that no stored user holds unexpired,
resetPassword fails with "Invalid or expired token" (returning no state, so
every stored password hash is unchanged); with a valid token it stores the
hash of the new password on that user, clears the token and its expiry,
and — the token having identified its user uniquely — a second call with
the same token on the resulting state fails. -/
theorem resetPassword_spec (token newPassword : String) (now : Nat) (db : DB) :
    ((∀ u ∈ db.users, resetTokenValid token now u = false) →
      resetPassword token newPassword now db = .error "Invalid or expired token") ∧
    (∀ u, db.users.find? (resetTokenValid token now) = some u →
      (∀ v ∈ db.users, v.resetToken = some token → v.id = u.id) →
      ∃ db2,
        resetPassword token newPassword now db =
          .ok ("Password has been reset successfully.", db2) ∧
        (∀ v ∈ db2.users, v.id = u.id →
          v.password = bcryptHash newPassword ∧
          v.resetToken = none ∧ v.resetTokenExpiry = none) ∧
        (∀ pw2 now2, resetPassword token pw2 now2 db2 = .error "Invalid or expired token")) := by
  constructor
  · intro hall
    unfold resetPassword
    rw [List.find?_eq_none.mpr (fun v hv => by simp [hall v hv])]
  · intro u hfind huniq
    have hres : resetPassword token newPassword now db =
        .ok ("Password has been reset successfully.",
          { db with users := db.users.map (fun v => if v.id == u.id then
              { u with password := bcryptHash newPassword, resetToken := none,
                       resetTokenExpiry := none } else v) }) := by
      unfold resetPassword
      rw [hfind]
    refine ⟨_, hres, ?_, ?_⟩
    · intro v hv hvid
      simp only [List.mem_map] at hv
      obtain ⟨w, hw, hvw⟩ := hv
      by_cases hwid : w.id = u.id
      · rw [if_pos (by simp [hwid])] at hvw
        subst hvw
        exact ⟨rfl, rfl, rfl⟩
      · rw [if_neg (by simp [hwid])] at hvw
        subst hvw
        exact absurd hvid hwid
    · intro pw2 now2
      unfold resetPassword
      rw [List.find?_eq_none.mpr ?hnone2]
      case hnone2 =>
        intro v hv
        simp only [List.mem_map] at hv
        obtain ⟨w, hw, hvw⟩ := hv
        by_cases hwid : w.id = u.id
        · rw [if_pos (by simp [hwid])] at hvw
          subst hvw
          simp [resetTokenValid]
        · rw [if_neg (by simp [hwid])] at hvw
          subst hvw
          have hne : w.resetToken ≠ some token := fun h => hwid (huniq w hw h)
          simp [resetTokenValid, hne]

/-- The user of the C6 witness: reset token "t" expiring at time 100. -/
def uC6 : UserR :=
  { id := 1, name := "n", email := "a@b", password := bcryptHash "old", role := "user",
    verified := true, verificationToken := none, resetToken := some "t",
    resetTokenExpiry := some 100 }

def dbC6 : DB :=
  { users := [uC6], products := [], feedbacks := [], audits := [], oplog := [] }

theorem resetPassword_spec_witness :
    ∃ db2,
      resetPassword "t" "new" 0 dbC6 = .ok ("Password has been reset successfully.", db2) ∧
      (∀ v ∈ db2.users, v.id = 1 →
        v.password = bcryptHash "new" ∧ v.resetToken = none ∧ v.resetTokenExpiry = none) ∧
      (∀ pw2 now2, resetPassword "t" pw2 now2 db2 = .error "Invalid or expired token") :=
  (resetPassword_spec "t" "new" 0 dbC6).2 uC6 (by rfl) (by decide)

/-- Equality of the user, product and feedback collections: everything a
mutation persists apart from the audit trail. -/
def coreEq (d1 d2 : DB) : Prop :=
  d1.users = d2.users ∧ d1.products = d2.products ∧ d1.feedbacks = d2.feedbacks

/-- Two resolver outcomes agree when they fail with the same error, or
succeed with the same value and the same primary collections. -/
def sameResult {α : Type} : Except String (α × DB) → Except String (α × DB) → Prop
  | .ok (v1, d1), .ok (v2, d2) => v1 = v2 ∧ coreEq d1 d2
  | .error e1, .error e2 => e1 = e2
  | _, _ => False

theorem sameResult_logAudit {α : Type} (v : α) (actor : Option Nat) (act det : String)
    (d : DB) :
    sameResult (.ok (v, logAudit true actor act det d)) (.ok (v, logAudit false actor act det d)) :=
  ⟨rfl, rfl, rfl, rfl⟩

/-- C9: for every audited mutation, the value returned to the caller and
the users, products and feedback collections are identical whether the
audit write succeeds or fails (in particular a failing audit write never
turns a success into an error); and a failing audit write leaves the audit
collection untouched, appending only to the operator log. -/
theorem audit_best_effort (db : DB) :
    (∀ name email pw role vtok newId,
      sameResult (register true name email pw role vtok newId db)
        (register false name email pw role vtok newId db)) ∧
    (∀ caller name desc newId,
      sameResult (addProduct true caller name desc newId db)
        (addProduct false caller name desc newId db)) ∧
    (∀ caller pid rating c now newId,
      sameResult (addFeedback true caller pid rating c now newId db)
        (addFeedback false caller pid rating c now newId db)) ∧
    (∀ caller id rating c,
      sameResult (updateFeedback true caller id rating c db)
        (updateFeedback false caller id rating c db)) ∧
    (∀ caller id,
      sameResult (deleteProduct true caller id db) (deleteProduct false caller id db)) ∧
    (∀ caller id,
      sameResult (deleteFeedback true caller id db) (deleteFeedback false caller id db)) ∧
    (∀ caller id,
      sameResult (deleteUser true caller id db) (deleteUser false caller id db)) ∧
    (∀ actor act det,
      (logAudit false actor act det db).audits = db.audits ∧
      (logAudit false actor act det db).oplog = db.oplog ++ ["AuditLog error"] ∧
      (logAudit true actor act det db).oplog = db.oplog) := by
  refine ⟨?_, ?_, ?_, ?_, ?_, ?_, ?_, ?_⟩
  · intro name email pw role vtok newId
    unfold register
    repeat' split
    all_goals first | exact sameResult_logAudit _ _ _ _ _ | rfl
  · intro caller name desc newId
    unfold addProduct
    repeat' split
    all_goals first | exact sameResult_logAudit _ _ _ _ _ | rfl
  · intro caller pid rating c now newId
    unfold addFeedback
    repeat' split
    all_goals first | exact sameResult_logAudit _ _ _ _ _ | rfl
  · intro caller id rating c
    unfold updateFeedback
    repeat' split
    all_goals first | exact sameResult_logAudit _ _ _ _ _ | rfl
  · intro caller id
    unfold deleteProduct
    repeat' split
    all_goals first | exact sameResult_logAudit _ _ _ _ _ | rfl
  · intro caller id
    unfold deleteFeedback
    repeat' split
    all_goals first | exact sameResult_logAudit _ _ _ _ _ | rfl
  · intro caller id
    unfold deleteUser
    repeat' split
    all_goals first | exact sameResult_logAudit _ _ _ _ _ | rfl
  · intro actor act det
    exact ⟨rfl, rfl, rfl⟩

theorem audit_best_effort_witness :
    sameResult (deleteProduct true (some ⟨9, "admin"⟩) 1 dbC8)
      (deleteProduct false (some ⟨9, "admin"⟩) 1 dbC8) :=
  (audit_best_effort dbC8).2.2.2.2.1 (some ⟨9, "admin"⟩) 1

theorem sweepStep_feedbacks_other (a : Bool) (db : DB) (q : ProductR) (pid : Nat)
    (h : q.id ≠ pid) :
    feedbacksByProduct (sweepStep a db q) pid = feedbacksByProduct db pid := by
  simp only [sweepStep]
  split
  · simp only [feedbacksByProduct, logAudit_feedbacks]
    rw [List.filter_filter]
    apply List.filter_congr
    intro f _
    by_cases hf : f.productId = pid
    · simp [hf, Ne.symm h]
    · simp [hf]
  · rfl

theorem sweepStep_products_other (a : Bool) (db : DB) (q : ProductR) (pid : Nat)
    (h : q.id ≠ pid) :
    (sweepStep a db q).products.filter (fun p => p.id == pid) =
      db.products.filter (fun p => p.id == pid) := by
  simp only [sweepStep]
  split
  · simp only [logAudit_products]
    rw [List.filter_filter]
    apply List.filter_congr
    intro p _
    by_cases hp : p.id = pid
    · simp [hp, Ne.symm h]
    · simp [hp]
  · rfl

theorem sweepStep_audits_mono (a : Bool) (db : DB) (q : ProductR) (x : AuditR)
    (hx : x ∈ db.audits) : x ∈ (sweepStep a db q).audits := by
  simp only [sweepStep]
  split
  · exact logAudit_audits_mono _ _ _ _ _ x hx
  · exact hx

theorem sweepFold_preserve (a : Bool) (l : List ProductR) (pid : Nat)
    (hl : ∀ q ∈ l, q.id ≠ pid) (db : DB) :
    feedbacksByProduct (l.foldl (sweepStep a) db) pid = feedbacksByProduct db pid ∧
    (l.foldl (sweepStep a) db).products.filter (fun p => p.id == pid) =
      db.products.filter (fun p => p.id == pid) ∧
    (∀ x ∈ db.audits, x ∈ (l.foldl (sweepStep a) db).audits) := by
  induction l generalizing db with
  | nil => exact ⟨rfl, rfl, fun x hx => hx⟩
  | cons q t ih =>
    have hq : q.id ≠ pid := hl q (List.mem_cons_self q t)
    have ht : ∀ r ∈ t, r.id ≠ pid := fun r hr => hl r (List.mem_cons_of_mem q hr)
    obtain ⟨h1, h2, h3⟩ := ih ht (sweepStep a db q)
    rw [List.foldl_cons]
    exact ⟨h1.trans (sweepStep_feedbacks_other a db q pid hq),
      h2.trans (sweepStep_products_other a db q pid hq),
      fun x hx => h3 x (sweepStep_audits_mono a db q x hx)⟩

theorem sweepStep_hit (a : Bool) (db : DB) (p : ProductR)
    (hcond : (feedbacksByProduct db p.id).length > 3 ∧
      ∀ f ∈ feedbacksByProduct db p.id, f.rating ≤ 1) :
    feedbacksByProduct (sweepStep a db p) p.id = [] ∧
    (sweepStep a db p).products.filter (fun q => q.id == p.id) = [] ∧
    (a = true → cleanupAudit p.id ∈ (sweepStep a db p).audits) := by
  have hif : sweepStep a db p = logAudit a none "monthlyCleanup"
      ("Deleted product " ++ toString p.id ++ " with all feedback <=1")
      { db with feedbacks := db.feedbacks.filter (fun f => f.productId ≠ p.id),
                products := db.products.filter (fun q => q.id ≠ p.id) } := by
    simp only [sweepStep]
    rw [if_pos hcond]
  rw [hif]
  refine ⟨?_, ?_, ?_⟩
  · simp only [feedbacksByProduct, logAudit_feedbacks]
    rw [List.filter_filter]
    apply List.filter_eq_nil_iff.mpr
    intro f _
    by_cases hf : f.productId = p.id
    · simp [hf]
    · simp [hf]
  · simp only [logAudit_products]
    rw [List.filter_filter]
    apply List.filter_eq_nil_iff.mpr
    intro q _
    by_cases hq : q.id = p.id
    · simp [hq]
    · simp [hq]
  · intro ha
    subst ha
    exact List.mem_append_right _ (List.mem_singleton.mpr rfl)

theorem sweepStep_miss (a : Bool) (db : DB) (p : ProductR)
    (hcond : ¬((feedbacksByProduct db p.id).length > 3 ∧
      ∀ f ∈ feedbacksByProduct db p.id, f.rating ≤ 1)) :
    sweepStep a db p = db := by
  simp only [sweepStep]
  rw [if_neg hcond]

/-- C3: one run of the monthly cleanup deletes a product, all feedback rows
referencing it, and records the null-actor audit entry, precisely when the
product had more than 3 feedback rows all rated at most 1; a product not
meeting both conditions keeps its place and its feedback set (product ids
assumed distinct, as Mongo ids are). -/
theorem monthlyCleanup_spec (db : DB) (p : ProductR)
    (hnd : (db.products.map (fun q => q.id)).Nodup)
    (hp : p ∈ db.products) :
    (((feedbacksByProduct db p.id).length > 3 ∧
        (∀ f ∈ feedbacksByProduct db p.id, f.rating ≤ 1)) →
      (∀ q ∈ (monthlyCleanup true db).products, q.id ≠ p.id) ∧
      (∀ f ∈ (monthlyCleanup true db).feedbacks, f.productId ≠ p.id) ∧
      cleanupAudit p.id ∈ (monthlyCleanup true db).audits) ∧
    (¬((feedbacksByProduct db p.id).length > 3 ∧
        (∀ f ∈ feedbacksByProduct db p.id, f.rating ≤ 1)) →
      p ∈ (monthlyCleanup true db).products ∧
      feedbacksByProduct (monthlyCleanup true db) p.id = feedbacksByProduct db p.id) := by
  obtain ⟨l1, l2, hsplit⟩ := List.append_of_mem hp
  have hids : (∀ q ∈ l1, q.id ≠ p.id) ∧ (∀ q ∈ l2, q.id ≠ p.id) := by
    rw [hsplit] at hnd
    simp only [List.map_append, List.map_cons, List.nodup_append] at hnd
    obtain ⟨-, h2, hdisj⟩ := hnd
    constructor
    · intro q hq he
      exact hdisj (List.mem_map_of_mem _ hq)
        (by rw [he]; exact List.mem_cons_self _ _)
    · intro q hq he
      exact (List.nodup_cons.mp h2).1 (he ▸ List.mem_map_of_mem (fun r => r.id) hq)
  have hfold : monthlyCleanup true db =
      l2.foldl (sweepStep true) (sweepStep true (l1.foldl (sweepStep true) db) p) := by
    unfold monthlyCleanup
    rw [hsplit, List.foldl_append, List.foldl_cons]
  obtain ⟨e1, e2, e3⟩ := sweepFold_preserve true l1 p.id hids.1 db
  constructor
  · intro hcond
    have hcond1 : (feedbacksByProduct (l1.foldl (sweepStep true) db) p.id).length > 3 ∧
        ∀ f ∈ feedbacksByProduct (l1.foldl (sweepStep true) db) p.id, f.rating ≤ 1 := by
      rw [e1]; exact hcond
    obtain ⟨g1, g2, g3⟩ := sweepStep_hit true (l1.foldl (sweepStep true) db) p hcond1
    obtain ⟨k1, k2, k3⟩ := sweepFold_preserve true l2 p.id hids.2
      (sweepStep true (l1.foldl (sweepStep true) db) p)
    refine ⟨?_, ?_, ?_⟩
    · intro q hq he
      have hmem : q ∈ (monthlyCleanup true db).products.filter (fun r => r.id == p.id) :=
        List.mem_filter.mpr ⟨hq, by simp [he]⟩
      rw [hfold, k2, g2] at hmem
      exact absurd hmem (List.not_mem_nil q)
    · intro f hf he
      have hmem : f ∈ feedbacksByProduct (monthlyCleanup true db) p.id :=
        List.mem_filter.mpr ⟨hf, by simp [he]⟩
      rw [hfold, k1, g1] at hmem
      exact absurd hmem (List.not_mem_nil f)
    · rw [hfold]
      exact k3 _ (g3 rfl)
  · intro hncond
    have hncond1 : ¬((feedbacksByProduct (l1.foldl (sweepStep true) db) p.id).length > 3 ∧
        ∀ f ∈ feedbacksByProduct (l1.foldl (sweepStep true) db) p.id, f.rating ≤ 1) := by
      rw [e1]; exact hncond
    have hmiss := sweepStep_miss true (l1.foldl (sweepStep true) db) p hncond1
    obtain ⟨k1, k2, k3⟩ := sweepFold_preserve true l2 p.id hids.2 (l1.foldl (sweepStep true) db)
    constructor
    · have hpf : p ∈ db.products.filter (fun r => r.id == p.id) :=
        List.mem_filter.mpr ⟨hp, by simp⟩
      rw [← e2, ← k2] at hpf
      have hfin : p ∈ (monthlyCleanup true db).products.filter (fun r => r.id == p.id) := by
        rw [hfold, hmiss]; exact hpf
      exact List.mem_of_mem_filter hfin
    · rw [hfold, hmiss, k1]
      exact e1

/-- The three products of the Cleanup Sweep scenario in the spec. -/
def pSweep : ProductR := { id := 1, name := "P", description := none, averageRating := 0 }

def qSweep : ProductR := { id := 2, name := "Q", description := none, averageRating := 0 }

def rSweep : ProductR := { id := 3, name := "R", description := none, averageRating := 0 }

/-- P has 4 feedback rows all rating 1, Q has ratings 1,1,1,2, R has 3 rows
all rating 1. -/
def dbSweep : DB :=
  { users := [], products := [pSweep, qSweep, rSweep],
    feedbacks :=
      [⟨1, 10, 1, 1, none, 0⟩, ⟨2, 11, 1, 1, none, 0⟩,
       ⟨3, 12, 1, 1, none, 0⟩, ⟨4, 13, 1, 1, none, 0⟩,
       ⟨5, 10, 2, 1, none, 0⟩, ⟨6, 11, 2, 1, none, 0⟩,
       ⟨7, 12, 2, 1, none, 0⟩, ⟨8, 13, 2, 2, none, 0⟩,
       ⟨9, 10, 3, 1, none, 0⟩, ⟨10, 11, 3, 1, none, 0⟩,
       ⟨11, 12, 3, 1, none, 0⟩],
    audits := [], oplog := [] }

theorem monthlyCleanup_spec_witness :
    ((∀ q ∈ (monthlyCleanup true dbSweep).products, q.id ≠ pSweep.id) ∧
     (∀ f ∈ (monthlyCleanup true dbSweep).feedbacks, f.productId ≠ pSweep.id) ∧
     cleanupAudit pSweep.id ∈ (monthlyCleanup true dbSweep).audits) ∧
    (qSweep ∈ (monthlyCleanup true dbSweep).products ∧
     feedbacksByProduct (monthlyCleanup true dbSweep) qSweep.id =
       feedbacksByProduct dbSweep qSweep.id) :=
  ⟨(monthlyCleanup_spec dbSweep pSweep (by decide) (by simp [dbSweep])).1 (by decide),
   (monthlyCleanup_spec dbSweep qSweep (by decide) (by simp [dbSweep])).2 (by decide)⟩

end FeedbackGraphQL
